import Mathlib

/-!
# Shallow embedding of the opensync daemon

This file embeds the parts of the `opensync` repository that the verified
properties talk about:

* `src/opensync/g1000.py` — flight-log parsing (`parse_flight_log`,
  `iter_parse_flight_log`) and summarisation (`summarize_flight_log`);
* `src/opensync/daemon.py` — the metadata-store logic of
  `process_flight_log`, the per-file step of the WiFi-SD-card capture loop,
  the shutdown flush of the pending table, and the power-loss tracking of
  both capture loops;
* `src/opensync/notecard_helpers.py` — the `temporary_mode` scope guard and
  the chunked `web_post` upload.

Python text is modelled as `List Char` (so that all definitions evaluate
inside the kernel), machine reals that the code only ever treats exactly
(sizes, seconds, fuel quantities) as `ℚ`/`ℤ`/`ℕ`, Python exceptions as an
explicit `Except` error channel, and the `pandas` missing value (`NaN` /
`None`) as `Option`.
-/

namespace OpenSync

/-- Text, modelled as a list of characters so that it reduces in the kernel. -/
abbrev Str := List Char

/-- Python `s.split(sep)` for a one-character separator: split at every
occurrence of `sep`, keeping empty pieces (`"a,b,".split(",") == ["a","b",""]`). -/
def splitChar (sep : Char) : Str → List Str
  | [] => [[]]
  | c :: rest =>
    let r := splitChar sep rest
    if c = sep then [] :: r
    else (c :: r.headI) :: r.tail

/-- Remove leading and trailing characters satisfying `p`
(Python `str.strip` with a character class). -/
def stripWhile (p : Char → Bool) (s : Str) : Str :=
  ((s.dropWhile p).reverse.dropWhile p).reverse

/-- Python `str.strip()` (whitespace at both ends). -/
def pyStrip (s : Str) : Str := stripWhile Char.isWhitespace s

/-- Python `str.strip("#")`. -/
def stripHash (s : Str) : Str := stripWhile (· == '#') s

/-- All-digits check used by the numeric parsers. -/
def allDigits (s : Str) : Bool := s.all Char.isDigit

/-- Parse a non-empty all-digit string into a natural number. -/
def parseNatDigits (s : Str) : Option ℕ :=
  if s ≠ [] ∧ allDigits s then
    some (s.foldl (fun acc c => acc * 10 + (c.toNat - 48)) 0)
  else none

/-- Python `int(s)`: optional sign followed by digits. -/
def parseIntStr (s : Str) : Option ℤ :=
  match s with
  | '+' :: rest => (parseNatDigits rest).map (fun n => (n : ℤ))
  | '-' :: rest => (parseNatDigits rest).map (fun n => -(n : ℤ))
  | _ => (parseNatDigits s).map (fun n => (n : ℤ))

/-- A calendar date as produced by `coerce_date` (`datetime.strptime(v, "%Y-%m-%d")`). -/
structure GDate where
  y : ℤ
  m : ℤ
  d : ℤ
deriving DecidableEq, Repr

/-- Days in a month of the proleptic Gregorian calendar (for `strptime`'s
validation of the day field). -/
def daysInMonth (y m : ℤ) : ℤ :=
  if m = 2 then
    if y % 4 = 0 ∧ (y % 100 ≠ 0 ∨ y % 400 = 0) then 29 else 28
  else if m = 4 ∨ m = 6 ∨ m = 9 ∨ m = 11 then 30
  else 31

/-- The source's `coerce_date`: parse `"YYYY-MM-DD"`, `None` on `ValueError`. -/
def parseDate (s : Str) : Option GDate :=
  match splitChar '-' s with
  | [ys, ms, ds] =>
    match parseNatDigits ys, parseNatDigits ms, parseNatDigits ds with
    | some y, some m, some d =>
      if ys.length ≤ 4 ∧ 1 ≤ m ∧ m ≤ 12 ∧ 1 ≤ d ∧ (d : ℤ) ≤ daysInMonth y m then
        some ⟨y, m, d⟩
      else none
    | _, _, _ => none
  | _ => none

/-- The source's `coerce_time`: parse `"HH:MM:SS"` into seconds since midnight,
`None` on `ValueError`. -/
def parseTime (s : Str) : Option ℤ :=
  match splitChar ':' s with
  | [hs, ms, ss] =>
    match parseNatDigits hs, parseNatDigits ms, parseNatDigits ss with
    | some h, some m, some sec =>
      if h ≤ 23 ∧ m ≤ 59 ∧ sec ≤ 61 then some ((h : ℤ) * 3600 + m * 60 + sec)
      else none
    | _, _, _ => none
  | _ => none

/-- The source's `coerce_tzinfo`: `"+00:00"` is UTC; otherwise split on `":"` into exactly
two `int()`s and build `timezone(timedelta(hours=h, minutes=m))`, which
requires the offset to be strictly inside one day.  `None` on `ValueError`. -/
def parseTz (s : Str) : Option ℤ :=
  if s = ("+00:00".toList) then some 0
  else
    match splitChar ':' s with
    | [hs, ms] =>
      match parseIntStr hs, parseIntStr ms with
      | some h, some m =>
        let o := h * 3600 + m * 60
        if o < 86400 ∧ -86400 < o then some o else none
      | _, _ => none
    | _ => none

/-- The source's `coerce_float`: Python `float(v)` restricted to the decimal forms that
occur in G1000 logs — optional sign, digits with an optional fractional part
(`float`'s exotic spellings such as `inf`/`nan`/exponents do not appear in
the unit-typed columns).  `None` on `ValueError`. -/
def parseFloat (s : Str) : Option ℚ :=
  let core : Str → Option ℚ := fun t =>
    match splitChar '.' t with
    | [ip] => (parseNatDigits ip).map (fun n => (n : ℚ))
    | [ip, fp] =>
      if ip = [] ∧ fp = [] then none
      else
        let ipv : Option ℕ := if ip = [] then some 0 else parseNatDigits ip
        let fpv : Option ℕ := if fp = [] then some 0 else parseNatDigits fp
        match ipv, fpv with
        | some i, some f => some ((i : ℚ) + (f : ℚ) / ((10 : ℚ) ^ fp.length))
        | _, _ => none
    | _ => none
  match s with
  | '+' :: rest => core rest
  | '-' :: rest => (core rest).map (fun x => -x)
  | _ => core s

/-- Field values as produced by the `G1000_TYPES` coercion functions.
`vdt` is the aware local timestamp that `iter_parse_flight_log` substitutes
for the `Lcl Time` entry (`datetime.combine(date, time, tzinfo)`); a `none`
offset models a naive timestamp (the `tzinfo` coercion returned `None`). -/
inductive GVal where
  | vdate (d : Option GDate)
  | vtime (t : Option ℤ)
  | vtz (o : Option ℤ)
  | vnum (x : Option ℚ)
  | vstr (s : Str)
  | vbool (b : Bool)
  | vdt (date : GDate) (t : ℤ) (o : Option ℤ)
deriving DecidableEq, Repr

/-- The unit strings mapped to `coerce_float` in `G1000_TYPES`. -/
def floatUnits : List Str :=
  [("degrees".toList), ("ft Baro".toList), ("inch".toList), ("ft msl".toList),
   ("deg C".toList), ("kt".toList), ("fpm".toList), ("deg".toList),
   ("G".toList), ("volts".toList), ("amps".toList), ("gals".toList),
   ("gph".toList), ("deg F".toList), ("psi".toList), ("Hg".toList),
   ("rpm".toList), ("%".toList), ("MHz".toList), ("nm".toList)]

/-- The source's `G1000_TYPES.get(field_type, str)` applied to a stripped value: the
per-unit coercion, defaulting to the identity/string coercion.  Python
`bool("")` is `False` and `bool(nonempty)` is `True`. -/
def coerceForType (ty : Str) (v : Str) : GVal :=
  if ty = ("yyy-mm-dd".toList) then .vdate (parseDate v)
  else if ty = ("hh:mm:ss".toList) then .vtime (parseTime v)
  else if ty = ("hh:mm".toList) then .vtz (parseTz v)
  else if ty ∈ floatUnits then .vnum (parseFloat v)
  else if ty = ("bool".toList) then .vbool (v ≠ [])
  else .vstr v

/-- Python exceptions (and one artifact of embedding unbounded polling
loops, `outOfFuel`). -/
inductive PyErr where
  | runtimeFormat
  | indexError
  | attributeError
  | typeError
  | keyError
  | nameError
  | connectionTimeout
  | deviceError
  | outOfFuel
deriving DecidableEq, Repr

/-- The coercion loop of `iter_parse_flight_log`: coerce the `ii`-th comma
piece with `flight_log_types[ii]` (an out-of-range index in either the type
row or the field row raises `IndexError`, which nothing catches). -/
def coerceRow (types fields : List Str) : List Str → ℕ → Except PyErr (List GVal)
  | [], _ => .ok []
  | vv :: rest, ii =>
    match types.get? ii, fields.get? ii with
    | some ty, some _ =>
      match coerceRow types fields rest (ii + 1) with
      | .ok tl => .ok (coerceForType ty (pyStrip vv) :: tl)
      | .error e => .error e
    | _, _ => .error .indexError

/-- The source's `(fields.index('Lcl Date'), fields.index('Lcl Time'), fields.index('UTCOfst'))`,
`None` when any is missing (`ValueError`). -/
def timeFieldsOf (fields : List Str) : Option (ℕ × ℕ × ℕ) :=
  match fields.indexOf? ("Lcl Date".toList), fields.indexOf? ("Lcl Time".toList),
        fields.indexOf? ("UTCOfst".toList) with
  | some a, some b, some c => some (a, b, c)
  | _, _, _ => none

/-- The timestamp-combining step of `iter_parse_flight_log`: replace the
`Lcl Time` entry of a full record with
`datetime.combine(rec[d].date(), rec[t].time(), rec[o])`.  A `None` (or
non-date / non-time) value raises `AttributeError`; a non-`tzinfo` third
argument raises `TypeError`; a `None` `tzinfo` yields a naive timestamp. -/
def combineTime (tf : ℕ × ℕ × ℕ) (rec : List GVal) : Except PyErr (List GVal) :=
  match rec.get? tf.1, rec.get? tf.2.1, rec.get? tf.2.2 with
  | some (.vdate (some dd)), some (.vtime (some tt)), some (.vtz oo) =>
    .ok (rec.set tf.2.1 (.vdt dd tt oo))
  | some (.vdate (some _)), some (.vtime (some _)), some _ => .error .typeError
  | some (.vdate (some _)), some _, _ => .error .attributeError
  | some _, _, _ => .error .attributeError
  | none, _, _ => .error .indexError

/-- The source's `iter_parse_flight_log` on the data lines: coerce each line, keep only
records whose length equals the header's field count (shorter splits are
silently dropped), and combine the local timestamp when the three time
columns exist. -/
def iterParse (types fields : List Str) (tf : Option (ℕ × ℕ × ℕ)) :
    List Str → Except PyErr (List (List GVal))
  | [] => .ok []
  | ll :: rest =>
    match coerceRow types fields (splitChar ',' ll) 0 with
    | .error e => .error e
    | .ok rec =>
      if rec.length = fields.length then
        match tf with
        | none =>
          match iterParse types fields tf rest with
          | .ok tl => .ok (rec :: tl)
          | .error e => .error e
        | some tfv =>
          match combineTime tfv rec with
          | .error e => .error e
          | .ok rec₂ =>
            match iterParse types fields tf rest with
            | .ok tl => .ok (rec₂ :: tl)
            | .error e => .error e
      else
        iterParse types fields tf rest

/-- The header signature `parse_flight_log` demands of the first line. -/
def airframeHeader : Str := ("#airframe_info, log_version=\"1.00\"".toList)

/-- Airframe metadata: a small string-keyed map (insertion ordered,
later assignments overwrite). -/
abbrev AirframeInfo := List (Str × Str)

/-- Python `dict` assignment on an insertion-ordered association list. -/
def dictAssign (m : List (Str × Str)) (k v : Str) : List (Str × Str) :=
  if m.any (fun p => p.1 == k) then
    m.map (fun p => if p.1 == k then (k, v) else p)
  else m ++ [(k, v)]

/-- The airframe-info loop of `parse_flight_log`: split the first line on
`","`; each piece must split on `"="` into exactly two parts (else
`ValueError`, caught, `continue`); an empty value raises `IndexError` at
`field_value[0]` (uncaught); a value quoted at both ends is unquoted. -/
def airframeInfoOf : List Str → Except PyErr AirframeInfo
  | [] => .ok []
  | piece :: rest =>
    match splitChar '=' piece with
    | [fieldName, fieldValue] =>
      match fieldValue with
      | [] => .error .indexError
      | c :: _ =>
        let v :=
          if c = '"' ∧ fieldValue.getLast? = some '"' then
            (fieldValue.drop 1).dropLast
          else fieldValue
        match airframeInfoOf rest with
        | .ok m => .ok (dictAssign m fieldName v)
        | .error e => .error e
    | _ => airframeInfoOf rest

/-- The parsed log: airframe metadata, the (stripped) field-name row, and
the kept data records. -/
structure ParsedLog where
  airframe : AirframeInfo
  fields : List Str
  rows : List (List GVal)
deriving DecidableEq, Repr

/-- The source's `parse_flight_log`: strip every line; `RuntimeError` unless the first
line starts with the `#airframe_info` signature; read the airframe fields,
the type row (`strip("#").strip()`) and the field row; parse the remaining
lines with `iter_parse_flight_log`. -/
def parseFlightLog (flightLog : Str) : Except PyErr ParsedLog :=
  let lines := (splitChar '\n' flightLog).map pyStrip
  let line0 := lines.headI
  if ¬ airframeHeader.isPrefixOf line0 then .error .runtimeFormat
  else
    match airframeInfoOf (splitChar ',' line0) with
    | .error e => .error e
    | .ok airframe =>
      match lines.get? 1, lines.get? 2 with
      | some tline, some fline =>
        let types := (splitChar ',' tline).map (fun x => pyStrip (stripHash x))
        let fields := (splitChar ',' fline).map pyStrip
        match iterParse types fields (timeFieldsOf fields) (lines.drop 3) with
        | .ok rows => .ok ⟨airframe, fields, rows⟩
        | .error e => .error e
      | _, _ => .error .indexError

/-! ## The summariser (`summarize_flight_log`)

A data row as consumed by `summarize_flight_log`: the three time columns
(always present and well-formed in a frame produced by `parse_flight_log`
with its timestamp-combining step) and the numeric sensor columns the
summary reads, each `Option ℚ` with `none` for `NaN`. -/

structure Row where
  lclDate : GDate
  lclTime : ℤ
  utcOfst : Option ℤ := none
  lat : Option ℚ := none
  lon : Option ℚ := none
  fqtyL : Option ℚ := none
  fqtyR : Option ℚ := none
  fflow : Option ℚ := none
  cht1 : Option ℚ := none
  cht2 : Option ℚ := none
  cht3 : Option ℚ := none
  cht4 : Option ℚ := none
  cht5 : Option ℚ := none
  cht6 : Option ℚ := none
  egt1 : Option ℚ := none
  egt2 : Option ℚ := none
  egt3 : Option ℚ := none
  egt4 : Option ℚ := none
  egt5 : Option ℚ := none
  egt6 : Option ℚ := none
  tit1 : Option ℚ := none
  tit2 : Option ℚ := none
  oilT : Option ℚ := none
  oilP : Option ℚ := none
  eMAP : Option ℚ := none
  rpm : Option ℚ := none
  ias : Option ℚ := none
  tas : Option ℚ := none
  latAc : Option ℚ := none
  normAc : Option ℚ := none
  volt1 : Option ℚ := none
  volt2 : Option ℚ := none
  amp1 : Option ℚ := none
deriving DecidableEq, Repr

/-- Days from 1970-01-01 of a proleptic Gregorian date (Euclidean `/` and
`%` coincide with floor division here since all divisors are positive). -/
def daysFromCivil (y m d : ℤ) : ℤ :=
  let y2 := if m ≤ 2 then y - 1 else y
  let era := y2 / 400
  let yoe := y2 - era * 400
  let mp := (m + 9) % 12
  let doy := (153 * mp + 2) / 5 + d - 1
  let doe := yoe * 365 + yoe / 4 - yoe / 100 + doy
  era * 146097 + doe - 719468

/-- The UTC instant (seconds) of a row's combined local timestamp; the
subtraction of two aware `datetime`s compares exactly these instants.  A
naive timestamp (offset `none`) is treated as offset `0` — subtraction of a
naive from an aware timestamp would raise in the source, and the logs this
code parses carry a `UTCOfst` on every row. -/
def tsOf (r : Row) : ℤ :=
  daysFromCivil r.lclDate.y r.lclDate.m r.lclDate.d * 86400 + r.lclTime -
    r.utcOfst.getD 0

/-- The `(date, time-of-day, offset)` triple whose `isoformat()` string the
summary stores for `beg_time`/`end_time`. -/
def isoTriple (r : Row) : GDate × ℤ × Option ℤ := (r.lclDate, r.lclTime, r.utcOfst)

/-- The source's `NaN`-propagating addition (`FQtyL + FQtyR` on series). -/
def optAdd (a b : Option ℚ) : Option ℚ :=
  match a, b with
  | some x, some y => some (x + y)
  | _, _ => none

/-- Statistical median of a list (`pandas` convention: mean of the two
middle order statistics for an even count), `none` on the empty list. -/
def listMedian (l : List ℚ) : Option ℚ :=
  let s := l.insertionSort (· ≤ ·)
  let n := s.length
  if n = 0 then none
  else if n % 2 = 1 then some (s.getD (n / 2) 0)
  else some ((s.getD (n / 2 - 1) 0 + s.getD (n / 2) 0) / 2)

/-- The source's `Series.rolling(15, min_periods=1, center=True).median()`: at index `i`
the window covers indices `[i-7, i+7]` clipped to the series, the median
skips `NaN`s, and an all-`NaN` window yields `NaN`. -/
def rollingMedian15 (xs : List (Option ℚ)) : List (Option ℚ) :=
  (List.range xs.length).map (fun i =>
    let lo := i - 7
    let window := (xs.drop lo).take (i + 8 - lo)
    listMedian (window.filterMap id))

/-- The source's `Series.max()`: maximum skipping `NaN`, `NaN` when no valid sample. -/
def optMax (l : List (Option ℚ)) : Option ℚ :=
  match l.filterMap id with
  | [] => none
  | x :: xs => some (xs.foldl max x)

/-- The source's `Series.min()`: minimum skipping `NaN`, `NaN` when no valid sample. -/
def optMin (l : List (Option ℚ)) : Option ℚ :=
  match l.filterMap id with
  | [] => none
  | x :: xs => some (xs.foldl min x)

/-- The source's `np.trapz(y, x)` — trapezoidal rule over adjacent pairs. -/
def trapz : List (ℤ × ℚ) → ℚ
  | (x1, y1) :: (x2, y2) :: rest =>
    ((x2 - x1 : ℤ) : ℚ) * (y1 + y2) / 2 + trapz ((x2, y2) :: rest)
  | _ => 0

/-- The source's `v > c` under `pandas` semantics: any comparison with `NaN` is `False`. -/
def qGt (v : Option ℚ) (c : ℚ) : Bool :=
  match v with
  | some x => decide (c < x)
  | none => false

/-- The source's `v < c`, `False` for `NaN`. -/
def qLt (v : Option ℚ) (c : ℚ) : Bool :=
  match v with
  | some x => decide (x < c)
  | none => false

/-- The source's `v <= c`, `False` for `NaN`. -/
def qLe (v : Option ℚ) (c : ℚ) : Bool :=
  match v with
  | some x => decide (x ≤ c)
  | none => false

/-- The interval-accumulation loop shared by Hobbs time and flight time:
walk the rows, opening an interval at a row where `openC` holds with no
interval open, closing it (and accumulating its duration) at a row where
`closeC` holds, returning the open-interval start and the accumulated
seconds. -/
def intervalLoop (val : Row → Option ℚ) (openC closeC : Option ℚ → Bool) :
    List Row → Option ℤ → ℤ → Option ℤ × ℤ
  | [], start, acc => (start, acc)
  | r :: rest, start, acc =>
    if openC (val r) ∧ start = none then
      intervalLoop val openC closeC rest (some (tsOf r)) acc
    else if closeC (val r) ∧ start ≠ none then
      intervalLoop val openC closeC rest none (acc + (tsOf r - start.getD 0))
    else intervalLoop val openC closeC rest start acc

/-- Total accumulated seconds: an interval still open after the loop is
closed at the last row's timestamp. -/
def intervalTotal (rows : List Row) (val : Row → Option ℚ)
    (openC closeC : Option ℚ → Bool) : ℤ :=
  match intervalLoop val openC closeC rows none 0 with
  | (some s, acc) =>
    match rows.getLast? with
    | some lastR => acc + (tsOf lastR - s)
    | none => acc
  | (none, acc) => acc

/-- Engine-on seconds (`E1 RPM > 0` opens, `E1 RPM <= 0` closes). -/
def hobbsSeconds (rows : List Row) : ℤ :=
  intervalTotal rows (fun r => r.rpm) (fun v => qGt v 0) (fun v => qLe v 0)

/-- In-flight seconds (`IAS > 35` opens, `IAS < 35` closes). -/
def flightSeconds (rows : List Row) : ℤ :=
  intervalTotal rows (fun r => r.ias) (fun v => qGt v 35) (fun v => qLt v 35)

/-- Executable ceiling division `⌈a / b⌉` for a positive divisor
(`math.ceil` of an exact quotient). -/
def ceilDiv (a b : ℤ) : ℤ := -((-a) / b)

/-- The duration-to-tenths-of-hours conversion at the end of
`summarize_flight_log`: with `timedelta` normalising a duration into
`(days, seconds)` with `0 ≤ seconds < 86400`, the hours are
`days * 24 + seconds // 3600` and the fraction is
`ceil((seconds % 3600) / 360) * 0.1`. -/
def roundTenths (t : ℤ) : ℚ :=
  (((t / 86400) * 24 + (t % 86400) / 3600 : ℤ) : ℚ) +
    ((ceilDiv (t % 86400 % 3600) 360 : ℤ) : ℚ) * (1 / 10)

/-- The summary record.  A field is `none` exactly when the corresponding
dictionary key is absent; extremum fields carry an inner `Option` because a
present key can still hold `NaN` (all-`NaN` column). -/
structure Summary where
  beg_time : Option (GDate × ℤ × Option ℤ) := none
  end_time : Option (GDate × ℤ × Option ℤ) := none
  max_fuel : Option (Option ℚ) := none
  min_fuel : Option (Option ℚ) := none
  fuel_remaining : Option (Option ℚ) := none
  fuel_consumed : Option ℚ := none
  max_cht : Option (List (Option ℚ)) := none
  max_egt : Option (List (Option ℚ)) := none
  max_tit : Option (List (Option ℚ)) := none
  max_oil_temp : Option (Option ℚ) := none
  max_oil_pressure : Option (Option ℚ) := none
  max_manifold_pressure : Option (Option ℚ) := none
  max_rpm : Option (Option ℚ) := none
  max_ias : Option (Option ℚ) := none
  max_tas : Option (Option ℚ) := none
  max_lat_accel : Option (Option ℚ) := none
  max_norm_accel : Option (Option ℚ) := none
  min_bat1_volts : Option (Option ℚ) := none
  min_bat2_volts : Option (Option ℚ) := none
  max_bat1_amps : Option (Option ℚ) := none
  hobbs_time : Option ℚ := none
  flight_time : Option ℚ := none
  origin_pos : Option (ℚ × ℚ) := none
  destination_pos : Option (ℚ × ℚ) := none
  origin : Option Str := none
  destination : Option Str := none
deriving DecidableEq, Repr

/-- The GPS-fix filter of `summarize_flight_log`
(`dropna(subset=['Latitude','Longitude'])`). -/
def gpsRow (r : Row) : Bool := r.lat.isSome && r.lon.isSome

/-- An injected geocoder (`neobase` nearest-airport lookup), absent when the
airport database is unavailable. -/
abbrev Geo := Option (ℚ → ℚ → Option Str)

/-- The source's `summarize_flight_log`.  Returns the data frame *as the caller sees it after
the call* — the GPS filter runs `inplace=True`, destructively replacing the
caller's frame with the filtered one — together with the summary.  An empty
input frame raises `IndexError` at `iloc[0]`. -/
def summarize (geo : Geo) (df : List Row) : Except PyErr (List Row × Summary) :=
  match df.head?, df.getLast? with
  | some r0, some rN =>
    let fdf := df.filter gpsRow
    if fdf = [] then
      .ok (fdf, { beg_time := some (isoTriple r0), end_time := some (isoTriple rN) })
    else
      let fuelRolling := rollingMedian15 (fdf.map (fun r => optAdd r.fqtyL r.fqtyR))
      let maxFuel := optMax ((fuelRolling.take 60).drop 30)
      let minFuel := optMin (fuelRolling.drop (fuelRolling.length - 15))
      let fuelPairs := fdf.filterMap (fun r => r.fflow.map (fun y => (tsOf r, y)))
      let originPos :=
        match fdf.find? (fun r => r.lat.isSome) with
        | some r => some (r.lat.getD 0, r.lon.getD 0)
        | none => none
      let destPos :=
        match fdf.reverse.find? (fun r => r.lat.isSome) with
        | some r => some (r.lat.getD 0, r.lon.getD 0)
        | none => none
      let lookup : Option (ℚ × ℚ) → Option Str := fun pos =>
        match geo, pos with
        | some g, some (la, lo) => g la lo
        | _, _ => none
      .ok (fdf,
        { beg_time := some (isoTriple r0)
          end_time := some (isoTriple rN)
          max_fuel := some maxFuel
          min_fuel := some minFuel
          fuel_remaining := some minFuel
          -- the `np.trapz` integral of fuel flow over time; the division by
          -- 3600 matches `/(3600 * 10**9)` with nanosecond abscissae
          fuel_consumed := some (trapz fuelPairs / 3600)
          max_cht := some [optMax (fdf.map (·.cht1)), optMax (fdf.map (·.cht2)),
            optMax (fdf.map (·.cht3)), optMax (fdf.map (·.cht4)),
            optMax (fdf.map (·.cht5)), optMax (fdf.map (·.cht6))]
          max_egt := some [optMax (fdf.map (·.egt1)), optMax (fdf.map (·.egt2)),
            optMax (fdf.map (·.egt3)), optMax (fdf.map (·.egt4)),
            optMax (fdf.map (·.egt5)), optMax (fdf.map (·.egt6))]
          max_tit := some [optMax (fdf.map (·.tit1)), optMax (fdf.map (·.tit2))]
          max_oil_temp := some (optMax (fdf.map (·.oilT)))
          max_oil_pressure := some (optMax (fdf.map (·.oilP)))
          max_manifold_pressure := some (optMax (fdf.map (·.eMAP)))
          max_rpm := some (optMax (fdf.map (·.rpm)))
          max_ias := some (optMax (fdf.map (·.ias)))
          max_tas := some (optMax (fdf.map (·.tas)))
          max_lat_accel := some (optMax (fdf.map (·.latAc)))
          max_norm_accel := some (optMax (fdf.map (·.normAc)))
          min_bat1_volts := some (optMin (fdf.map (·.volt1)))
          min_bat2_volts := some (optMin (fdf.map (·.volt2)))
          max_bat1_amps := some (optMax (fdf.map (·.amp1)))
          hobbs_time := some (roundTenths (hobbsSeconds fdf))
          flight_time := some (roundTenths (flightSeconds fdf))
          origin_pos := originPos
          destination_pos := destPos
          origin := lookup originPos
          destination := lookup destPos })
  | _, _ => .error .indexError

/-- The caller's data-frame value after `summarize_flight_log` returns (the
`inplace` filter's effect); unchanged when the call raised. -/
def summarizeDfAfter (geo : Geo) (df : List Row) : List Row :=
  match summarize geo df with
  | .ok (d, _) => d
  | .error _ => df

/-! ## The daemon (`daemon.py`) -/

/-- The source's `fields.index(name)` wrapped as column access: `KeyError` when the
parsed frame has no such column. -/
def colIdx (fields : List Str) (name : Str) : Except PyErr ℕ :=
  match fields.indexOf? name with
  | some i => .ok i
  | none => .error .keyError

/-- Read a numeric column entry of a parsed record: the unit-typed coercion
must have produced a float (`NaN` included); arithmetic on a column of any
other dtype raises. -/
def getNum (rec : List GVal) (i : ℕ) : Except PyErr (Option ℚ) :=
  match rec.get? i with
  | some (.vnum x) => .ok x
  | some _ => .error .typeError
  | none => .error .indexError

/-- Convert one parsed record into a summariser row, reading the columns
`summarize_flight_log` uses.  The three time columns must hold the values
`parse_flight_log` puts there (a date, the combined timestamp, a tzinfo). -/
def rowOf (fields : List Str) (rec : List GVal) : Except PyErr Row := do
  let num := fun (nm : Str) => do getNum rec (← colIdx fields nm)
  let iDate ← colIdx fields ("Lcl Date".toList)
  let iTime ← colIdx fields ("Lcl Time".toList)
  let iOfst ← colIdx fields ("UTCOfst".toList)
  match rec.get? iDate, rec.get? iTime, rec.get? iOfst with
  | some (.vdate (some dd)), some (.vdt _ tt oo), some (.vtz _) =>
    return { lclDate := dd, lclTime := tt, utcOfst := oo
             lat := ← num ("Latitude".toList), lon := ← num ("Longitude".toList)
             fqtyL := ← num ("FQtyL".toList), fqtyR := ← num ("FQtyR".toList)
             fflow := ← num ("E1 FFlow".toList)
             cht1 := ← num ("E1 CHT1".toList), cht2 := ← num ("E1 CHT2".toList)
             cht3 := ← num ("E1 CHT3".toList), cht4 := ← num ("E1 CHT4".toList)
             cht5 := ← num ("E1 CHT5".toList), cht6 := ← num ("E1 CHT6".toList)
             egt1 := ← num ("E1 EGT1".toList), egt2 := ← num ("E1 EGT2".toList)
             egt3 := ← num ("E1 EGT3".toList), egt4 := ← num ("E1 EGT4".toList)
             egt5 := ← num ("E1 EGT5".toList), egt6 := ← num ("E1 EGT6".toList)
             tit1 := ← num ("E1 TIT1".toList), tit2 := ← num ("E1 TIT2".toList)
             oilT := ← num ("E1 OilT".toList), oilP := ← num ("E1 OilP".toList)
             eMAP := ← num ("E1 MAP".toList), rpm := ← num ("E1 RPM".toList)
             ias := ← num ("IAS".toList), tas := ← num ("TAS".toList)
             latAc := ← num ("LatAc".toList), normAc := ← num ("NormAc".toList)
             volt1 := ← num ("volt1".toList), volt2 := ← num ("volt2".toList)
             amp1 := ← num ("amp1".toList) }
  | some _, _, _ => .error .attributeError
  | none, _, _ => .error .indexError

/-- Convert a whole parsed frame into summariser rows. -/
def dfToRows (pl : ParsedLog) : Except PyErr (List Row) :=
  pl.rows.mapM (rowOf pl.fields)

/-- A record of the TinyDB metadata store. -/
structure DbRecord where
  type : Str
  fname : Str
  datapath : Str
  origin : Str
  summary : Summary
  airframe : AirframeInfo
deriving DecidableEq, Repr

/-- The source's `os.path.basename` (POSIX): the part after the last `/`. -/
def basename (p : Str) : Str := (splitChar '/' p).getLastD p

/-- The source's `os.path.splitext(s)[0]`: everything before the last dot. -/
def stem (s : Str) : Str :=
  let parts := splitChar '.' s
  if parts.length ≤ 1 then s else List.intercalate (['.'] : Str) parts.dropLast

/-- The source's `os.path.join` for the two-argument uses in the daemon. -/
def joinPath (a b : Str) : Str := a ++ ['/'] ++ b

/-- Longest (regex-greedy) maximal digit run. -/
def spanDigits (s : Str) : Str × Str := (s.takeWhile Char.isDigit, s.dropWhile Char.isDigit)

/-- The source's `re.match("log_(\d+)_(\d+)_(.*).csv", bfname)` reduced to its third
group: the pattern is start-anchored only, the unescaped `.` matches any
character, and the greedy `(.*)` stretches to the last position followed by
one character and the literal `csv`.  Returns `"UNK"` when there is no
match (the daemon logs a warning and uses `"UNK"` as origin). -/
def originOf (bf : Str) : Str :=
  let unk : Str := ("UNK".toList)
  if ("log_".toList).isPrefixOf bf then
    let r1 := bf.drop 4
    let (d1, r2) := spanDigits r1
    if d1 = [] then unk
    else
      match r2 with
      | '_' :: r3 =>
        let (d2, r4) := spanDigits r3
        if d2 = [] then unk
        else
          match r4 with
          | '_' :: rem =>
            match (List.range rem.length).reverse.find?
                (fun n => decide (n + 4 ≤ rem.length) &&
                  ((rem.drop (n + 1)).take 3 == ("csv".toList))) with
            | some n => rem.take n
            | none => unk
          | _ => unk
      | _ => unk
  else unk

/-- The store query `(Q.type == "log") & (Q.fname == bfname)`. -/
def isLogRec (bf : Str) (r : DbRecord) : Bool :=
  r.type == ("log".toList) && r.fname == bf

/-- The source's `process_flight_log`: search the store for an existing record of this
display name; without `force` an existing record makes the call return with
no record and no store change; otherwise parse, summarise, and either
update the matching records in place (`force` re-processing) or insert a
fresh record.  Parsing or summarising failures propagate before any store
write. -/
def processFlightLog (geo : Geo) (force : Bool) (dataPath : Str)
    (db : List DbRecord) (fname : Str) (flightLog : Str) :
    Except PyErr (List DbRecord × Option Summary) :=
  let bf := basename fname
  let res := db.filter (isLogRec bf)
  if 0 < res.length ∧ ¬ force then .ok (db, none)
  else
    match parseFlightLog flightLog with
    | .error e => .error e
    | .ok pl =>
      match dfToRows pl with
      | .error e => .error e
      | .ok rows =>
        match summarize geo rows with
        | .error e => .error e
        | .ok (_, summ) =>
          let record : DbRecord :=
            { type := ("log".toList), fname := bf
              datapath := joinPath dataPath (stem bf ++ (".pkl".toList))
              origin := originOf bf, summary := summ, airframe := pl.airframe }
          let db2 :=
            if 0 < res.length then
              db.map (fun r => if isLogRec bf r then record else r)
            else db ++ [record]
          .ok (db2, some summ)

/-- The metadata store as the daemon sees it after a `process_flight_log`
call: unchanged when the call raised (the caller catches and logs). -/
def dbAfter (geo : Geo) (force : Bool) (dataPath : Str) (db : List DbRecord)
    (fname : Str) (flightLog : Str) : List DbRecord :=
  match processFlightLog geo force dataPath db fname flightLog with
  | .ok (db2, _) => db2
  | .error _ => db

/-- How many `log` records the store holds for a display name. -/
def logCount (db : List DbRecord) (bf : Str) : ℕ := (db.filter (isLogRec bf)).length

/-- The pending-file table `{display_name: (last_size, downloaded_or_None)}`
(an insertion-ordered Python dict). -/
abbrev PendTable := List (Str × ℤ × Option Str)

/-- Dict lookup. -/
def pendGet (t : PendTable) (k : Str) : Option (ℤ × Option Str) :=
  (t.find? (fun e => e.1 == k)).map (·.2)

/-- Dict assignment: overwrite in place, else append. -/
def pendSet (t : PendTable) (k : Str) (v : ℤ × Option Str) : PendTable :=
  if t.any (fun e => e.1 == k) then t.map (fun e => if e.1 == k then (k, v) else e)
  else t ++ [(k, v)]

/-- Dict `pop`. -/
def pendPop (t : PendTable) (k : Str) : PendTable :=
  t.filter (fun e => ¬ (e.1 == k))

/-- What the per-file branch of the WiFi-SD-card poll tick did with one
file, and how many downloads it attempted. -/
inductive FileAction where
  | skippedInDb
  | deferredNew
  | deferredGrowing (buf : Str)
  | connLost
  | processed (buf : Str)
deriving DecidableEq, Repr

/-- One file's treatment inside a poll tick of
`opensync_g1000_wifi_sdcard_process` (daemon.py lines 368–423): skip names
already in the store (unless forced); defer a first sighting recording only
the size; on a changed size download eagerly and keep the entry pending
with the new size and buffer; on an unchanged size pop the entry, download
only if no bytes were captured yet, and hand the buffer to the summariser
(`processed`).  `download` is the storage adapter's response (`none` =
`ConnectionError`, which aborts the tick leaving the table as is). -/
def fileStep (db : List DbRecord) (force : Bool) (pending : PendTable)
    (fname : Str) (filesize : ℤ) (download : Option Str) :
    PendTable × FileAction × ℕ :=
  if 0 < logCount db fname ∧ ¬ force then (pending, .skippedInDb, 0)
  else
    match pendGet pending fname with
    | none => (pendSet pending fname (filesize, none), .deferredNew, 0)
    | some (sz, buf) =>
      if sz ≠ filesize then
        match download with
        | none => (pending, .connLost, 1)
        | some fl => (pendSet pending fname (filesize, some fl), .deferredGrowing fl, 1)
      else
        let pending2 := pendPop pending fname
        match buf with
        | some fl => (pending2, .processed fl, 0)
        | none =>
          match download with
          | none => (pending2, .connLost, 1)
          | some fl => (pending2, .processed fl, 1)

/-- Run one file through consecutive poll ticks: each observation is the
listed size together with what a download at that tick would return. -/
def runFileObs (db : List DbRecord) (force : Bool) (fname : Str) :
    List (ℤ × Option Str) → PendTable → PendTable × List (FileAction × ℕ)
  | [], pending => (pending, [])
  | (sz, dl) :: rest, pending =>
    let (p2, act, n) := fileStep db force pending fname sz dl
    let (p3, acts) := runFileObs db force fname rest p2
    (p3, (act, n) :: acts)

/-- The shutdown flush of the pending table (daemon.py lines 428–441).  The
loop body's first statement, `logging.info("Processing %s at %s", fname,
short_fname)`, reads the undefined name `short_fname` *outside* the `try`
block, so the first iteration over a non-empty table raises `NameError`,
which no handler catches: no pending entry is ever summarised. -/
def flushPending (db : List DbRecord) (pending : PendTable) :
    Except PyErr (List DbRecord) :=
  match pending with
  | [] => .ok db
  | _ :: _ => .error .nameError

/-- Power-loss tracking of a poll tick (daemon.py 254–264 and 466–475):
given the sampled power status and the `external_power_lost_at` timestamp,
return the new timestamp and whether shutdown was initiated.  Restoration
clears the timestamp; a fresh loss records `now`; a loss older than the
grace period fires the shutdown. -/
def powerStep (grace : ℤ) (pw : Bool) (lostAt : Option ℤ) (now : ℤ) :
    Option ℤ × Bool :=
  if pw ∧ lostAt ≠ none then (none, false)
  else if ¬ pw ∧ lostAt = none then (some now, false)
  else
    match lostAt with
    | some t => if now - t > grace then (lostAt, true) else (lostAt, false)
    | none => (none, false)

/-- WiFi-SD-card mode grace period: `timedelta(seconds=10)`. -/
def graceWifi : ℤ := 10

/-- Standalone mode grace period: `timedelta(minutes=1)`. -/
def graceStandalone : ℤ := 60

/-- The WiFi-SD-card loop's power check: only run when `enable_ups` is set;
the battery check at startup (`check_battery_available`) merely logs a
warning and does not feed the transition. -/
def wifiPowerCheck (enableUps batteryAvailable : Bool) (pw : Bool)
    (lostAt : Option ℤ) (now : ℤ) : Option ℤ × Bool :=
  if enableUps then powerStep graceWifi pw lostAt now else (lostAt, false)

/-- The standalone loop's power check (always on); the battery check again
only logs. -/
def standalonePowerCheck (batteryAvailable : Bool) (pw : Bool)
    (lostAt : Option ℤ) (now : ℤ) : Option ℤ × Bool :=
  powerStep graceStandalone pw lostAt now

/-! ## The device link (`notecard_helpers.py`) -/

/-- The transactions `temporary_mode` issues. -/
inductive NReq where
  | hubGet
  | hubSet (mode : Str)
  | hubStatus
  | hubSyncStatus
deriving DecidableEq, Repr

/-- A transaction response, restricted to the fields the helpers read. -/
structure NRsp where
  err : Option Str := none
  payload : Option Str := none
deriving DecidableEq, Repr

/-- The connection-wait loop of `temporary_mode.__enter__`: iteration `k`
runs at wall-clock `5 * k` (the loop sleeps 5 s at its end); at each
iteration the expired deadline is checked first (raising the
connection-timeout error), then `hub.status` is polled, breaking on a true
`connected` flag, else `hub.sync.status` is polled and the loop sleeps.
`fuel` bounds the unbounded source loop; with a timeout set it never runs
out in the theorems below. -/
def connWait (conn : ℕ → Bool) (timeout : Option ℤ) : ℕ → ℕ → List NReq × Except PyErr Unit
  | fuel, k =>
    let timedOut : Bool :=
      match timeout with
      | some tmo => decide ((5 * k : ℤ) > tmo)
      | none => false
    if timedOut then ([], .error .connectionTimeout)
    else
      match fuel with
      | 0 => ([], .error .outOfFuel)
      | fuel2 + 1 =>
        if conn k then ([.hubStatus], .ok ())
        else
          let (tr, r) := connWait conn timeout fuel2 (k + 1)
          (.hubStatus :: .hubSyncStatus :: tr, r)

/-- The source's `temporary_mode.__enter__`: read the current mode (`hub.get`); if it
differs from the target, set the target mode (`hub.set`); then, when
`wait_for_connection`, run the connection wait.  Returns the transactions
issued and whether entry succeeded. -/
def tmEnter (curMode target : Str) (wait : Bool) (conn : ℕ → Bool)
    (timeout : Option ℤ) (fuel : ℕ) : List NReq × Except PyErr Unit :=
  let setTr : List NReq := if curMode ≠ target then [.hubSet target] else []
  if wait then
    let (tr, r) := connWait conn timeout fuel 0
    (.hubGet :: setTr ++ tr, r)
  else (.hubGet :: setTr, .ok ())

/-- The source's `temporary_mode.__exit__`: restore the prior mode when it was changed. -/
def tmExit (curMode target : Str) : List NReq :=
  if curMode ≠ target then [.hubSet curMode] else []

/-- A full `with temporary_mode(...)` block around a wrapped operation with
outcome `body`.  Python's `with` statement calls `__exit__` only when
`__enter__` returned: an exception inside the connection wait propagates
without any mode restoration, while both normal completion and a failing
body run the restore. -/
def temporaryModeRun (curMode target : Str) (wait : Bool) (conn : ℕ → Bool)
    (timeout : Option ℤ) (fuel : ℕ) (body : Except PyErr α) :
    List NReq × Except PyErr α :=
  let (tr, r) := tmEnter curMode target wait conn timeout fuel
  match r with
  | .error e => (tr, .error e)
  | .ok _ =>
    match body with
    | .ok a => (tr ++ tmExit curMode target, .ok a)
    | .error e => (tr ++ tmExit curMode target, .error e)

/-- The base64 alphabet. -/
def b64Alphabet : Str :=
  ("ABCDEFGHIJKLMNOPQRSTUVWXYZabcdefghijklmnopqrstuvwxyz0123456789+/".toList)

/-- One base64 digit. -/
def b64Char (n : ℕ) : Char := b64Alphabet.getD n 'A'

/-- The source's `binascii.b2a_base64(data, newline=False)` over a byte list. -/
def b64Encode : List ℕ → Str
  | [] => []
  | [a] => [b64Char (a / 4), b64Char (a % 4 * 16), '=', '=']
  | [a, b] => [b64Char (a / 4), b64Char (a % 4 * 16 + b / 16), b64Char (b % 16 * 4), '=']
  | a :: b :: c :: rest =>
    [b64Char (a / 4), b64Char (a % 4 * 16 + b / 16),
     b64Char (b % 16 * 4 + c / 64), b64Char (c % 64)] ++ b64Encode rest

/-- The MD5 sine-derived constant table. -/
def md5K : List ℕ :=
  [0xd76aa478, 0xe8c7b756, 0x242070db, 0xc1bdceee,
   0xf57c0faf, 0x4787c62a, 0xa8304613, 0xfd469501,
   0x698098d8, 0x8b44f7af, 0xffff5bb1, 0x895cd7be,
   0x6b901122, 0xfd987193, 0xa679438e, 0x49b40821,
   0xf61e2562, 0xc040b340, 0x265e5a51, 0xe9b6c7aa,
   0xd62f105d, 0x02441453, 0xd8a1e681, 0xe7d3fbc8,
   0x21e1cde6, 0xc33707d6, 0xf4d50d87, 0x455a14ed,
   0xa9e3e905, 0xfcefa3f8, 0x676f02d9, 0x8d2a4c8a,
   0xfffa3942, 0x8771f681, 0x6d9d6122, 0xfde5380c,
   0xa4beea44, 0x4bdecfa9, 0xf6bb4b60, 0xbebfbc70,
   0x289b7ec6, 0xeaa127fa, 0xd4ef3085, 0x04881d05,
   0xd9d4d039, 0xe6db99e5, 0x1fa27cf8, 0xc4ac5665,
   0xf4292244, 0x432aff97, 0xab9423a7, 0xfc93a039,
   0x655b59c3, 0x8f0ccc92, 0xffeff47d, 0x85845dd1,
   0x6fa87e4f, 0xfe2ce6e0, 0xa3014314, 0x4e0811a1,
   0xf7537e82, 0xbd3af235, 0x2ad7d2bb, 0xeb86d391]

/-- The MD5 per-round left-rotation amounts. -/
def md5S : List ℕ :=
  [7, 12, 17, 22, 7, 12, 17, 22, 7, 12, 17, 22, 7, 12, 17, 22,
   5, 9, 14, 20, 5, 9, 14, 20, 5, 9, 14, 20, 5, 9, 14, 20,
   4, 11, 16, 23, 4, 11, 16, 23, 4, 11, 16, 23, 4, 11, 16, 23,
   6, 10, 15, 21, 6, 10, 15, 21, 6, 10, 15, 21, 6, 10, 15, 21]

/-- A 32-bit left rotation on naturals below `2 ^ 32`. -/
def rotl32 (x s : ℕ) : ℕ := x % 2 ^ 32 * 2 ^ s % 2 ^ 32 + x % 2 ^ 32 / 2 ^ (32 - s)

/-- MD5 padding: a `0x80` byte, zeros to 56 mod 64, then the original bit
length as eight little-endian bytes. -/
def md5Pad (msg : List ℕ) : List ℕ :=
  let l := msg.length
  let bits := l * 8 % 2 ^ 64
  msg ++ [128] ++ List.replicate ((119 - l % 64) % 64) 0 ++
    (List.range 8).map (fun i => bits / 2 ^ (8 * i) % 256)

/-- Split the padded message into 64-byte blocks. -/
def chunks64 (l : List ℕ) : List (List ℕ) :=
  if h : l = [] then [] else l.take 64 :: chunks64 (l.drop 64)
termination_by l.length
decreasing_by simp [List.length_drop]; exact List.length_pos.mpr h

/-- The `g`-th little-endian 32-bit word of a block. -/
def m32 (block : List ℕ) (g : ℕ) : ℕ :=
  block.getD (4 * g) 0 + block.getD (4 * g + 1) 0 * 256 +
    block.getD (4 * g + 2) 0 * 65536 + block.getD (4 * g + 3) 0 * 16777216

/-- One of the 64 MD5 operations. -/
def md5Op (block : List ℕ) (st : ℕ × ℕ × ℕ × ℕ) (i : ℕ) : ℕ × ℕ × ℕ × ℕ :=
  let (a, b, c, d) := st
  let mask := 0xffffffff
  let (f, g) :=
    if i < 16 then ((b &&& c) ||| ((mask ^^^ b) &&& d), i)
    else if i < 32 then ((d &&& b) ||| ((mask ^^^ d) &&& c), (5 * i + 1) % 16)
    else if i < 48 then (b ^^^ c ^^^ d, (3 * i + 5) % 16)
    else (c ^^^ (b ||| (mask ^^^ d)), 7 * i % 16)
  let tmp := (f + a + md5K.getD i 0 + m32 block g) % 2 ^ 32
  (d, (b + rotl32 tmp (md5S.getD i 0)) % 2 ^ 32, b, c)

/-- Absorb one 64-byte block. -/
def md5Block (st : ℕ × ℕ × ℕ × ℕ) (block : List ℕ) : ℕ × ℕ × ℕ × ℕ :=
  let (a, b, c, d) := (List.range 64).foldl (md5Op block) st
  ((st.1 + a) % 2 ^ 32, (st.2.1 + b) % 2 ^ 32, (st.2.2.1 + c) % 2 ^ 32,
   (st.2.2.2 + d) % 2 ^ 32)

/-- One lowercase hexadecimal digit. -/
def hexChar (n : ℕ) : Char := ("0123456789abcdef".toList).getD n '0'

/-- A byte as two lowercase hex digits. -/
def byteHex (b : ℕ) : Str := [hexChar (b / 16), hexChar (b % 16)]

/-- A 32-bit word as four little-endian bytes. -/
def le4 (w : ℕ) : List ℕ := [w % 256, w / 256 % 256, w / 65536 % 256, w / 16777216 % 256]

/-- The source's `hashlib.md5(data).hexdigest()` over a byte list. -/
def md5Hex (msg : List ℕ) : Str :=
  let st := (chunks64 (md5Pad msg)).foldl md5Block
    (0x67452301, 0xefcdab89, 0x98badcfe, 0x10325476)
  ((le4 st.1 ++ le4 st.2.1 ++ le4 st.2.2.1 ++ le4 st.2.2.2).map byteHex).flatten

/-- A `web.post` transaction as `web_post` builds it: `route`, the optional
`name`/`content`, the base64 `payload`, and — only on fragments — `total`
(full payload length), `status` (MD5 hex of the fragment), `offset`, and
`verify`. -/
structure WebReq where
  route : Str
  name : Option Str := none
  content : Option Str := none
  total : Option ℕ := none
  payload : Str := []
  status : Option Str := none
  offset : Option ℕ := none
  verify : Option Bool := none
deriving DecidableEq, Repr

/-- The request one iteration of the `web_post` loop sends at a given
offset: a fragment carrying offset, total, digest and verify flag when the
payload exceeds the chunk size, else the whole payload unfragmented. -/
def webReqAt (route : Str) (name content : Option Str) (payload : List ℕ)
    (chunk offset : ℕ) : WebReq :=
  if payload.length > chunk then
    let frag := (payload.drop offset).take chunk
    { route, name, content, total := some payload.length,
      payload := b64Encode frag, status := some (md5Hex frag),
      offset := some offset, verify := some true }
  else { route, name, content, payload := b64Encode payload }

/-- All requests the `web_post` loop issues from a given offset (the loop
advances by the chunk size while the offset is inside the payload; a zero
chunk size would loop forever in the source, whence the positivity
argument). -/
def webReqs (route : Str) (name content : Option Str) (payload : List ℕ)
    (chunk : ℕ) (hC : 0 < chunk) (offset : ℕ) : List WebReq :=
  if h : offset < payload.length then
    webReqAt route name content payload chunk offset ::
      webReqs route name content payload chunk hC (offset + chunk)
  else []
termination_by payload.length - offset

/-- The `web_post` upload loop with the card's responses: each sent request
is answered by `rsps i`; a response with an `err` field aborts with the
device error; when the loop never ran, reading the final response raises
`NameError` (`rsp` is unbound after the loop). -/
def webLoop (route : Str) (name content : Option Str) (payload : List ℕ)
    (chunk : ℕ) (hC : 0 < chunk) (rsps : ℕ → NRsp) (offset i : ℕ)
    (last : Option NRsp) : List WebReq × Except PyErr NRsp :=
  if h : offset < payload.length then
    let rsp := rsps i
    if rsp.err.isSome then
      ([webReqAt route name content payload chunk offset], .error .deviceError)
    else
      let (rs, res) :=
        webLoop route name content payload chunk hC rsps (offset + chunk) (i + 1) (some rsp)
      (webReqAt route name content payload chunk offset :: rs, res)
  else
    match last with
    | some r => ([], .ok r)
    | none => ([], .error .nameError)
termination_by payload.length - offset

/-- The source's `web_post`: enter `temporary_mode(card, "continuous", ...)`; on entry
failure nothing is sent; otherwise run the upload loop, restore the mode on
leaving the `with` block (also when the loop aborted), and afterwards read
the final response's optional `payload` as the decoded response body (the
un-run-loop `NameError` fires after the restore). -/
def webPost (curMode : Str) (wait : Bool) (conn : ℕ → Bool) (timeout : Option ℤ)
    (fuel : ℕ) (route : Str) (name content : Option Str) (payload : List ℕ)
    (chunk : ℕ) (hC : 0 < chunk) (rsps : ℕ → NRsp) :
    List NReq × List WebReq × Except PyErr (NRsp × Option Str) :=
  let contMode := ("continuous".toList)
  let (tr, r) := tmEnter curMode contMode wait conn timeout fuel
  match r with
  | .error e => (tr, [], .error e)
  | .ok _ =>
    let (wreqs, res) := webLoop route name content payload chunk hC rsps 0 0 none
    let tr2 := tr ++ tmExit curMode contMode
    match res with
    | .ok rsp => (tr2, wreqs, .ok (rsp, rsp.payload))
    | .error e => (tr2, wreqs, .error e)

/-- Modelled from the spec's fragmentation law, for comparison with
`webReqs`: `ceil(L/C)` fragments when `L > C`, carrying total length,
offsets `0, C, 2C, …`, the base64 chunk and its MD5 hex digest; one
unfragmented transaction when `L ≤ C`. -/
def specWebReqs (route : Str) (name content : Option Str) (payload : List ℕ)
    (chunk : ℕ) : List WebReq :=
  if payload.length ≤ chunk then
    [{ route, name, content, payload := b64Encode payload }]
  else
    (List.range ((payload.length + chunk - 1) / chunk)).map (fun j =>
      let frag := (payload.drop (j * chunk)).take chunk
      { route, name, content, total := some payload.length,
        payload := b64Encode frag, status := some (md5Hex frag),
        offset := some (j * chunk), verify := some true })

/-! ## Sample data used by concrete instances -/

/-- A parsed row with a valid local timestamp and no GPS fix. -/
def rowNoGps : Row :=
  { lclDate := ⟨2022, 3, 8⟩, lclTime := 47159, utcOfst := some (-18000) }

/-- The summary of a series whose every row lacks a GPS fix and whose first
and last rows coincide with `rowNoGps`. -/
def rowNoGpsSummary : Summary :=
  { beg_time := some (isoTriple rowNoGps), end_time := some (isoTriple rowNoGps) }

/-- A store record for the display name `log_1_2_K.csv`. -/
def sampleLogRecord : DbRecord :=
  { type := ("log".toList), fname := ("log_1_2_K.csv".toList)
    datapath := [], origin := [], summary := {}, airframe := [] }

/-! ## Helper lemmas -/

theorem ceilDiv_360 (a : ℤ) : ceilDiv a 360 = ⌈(a : ℚ) / 360⌉ := by
  rw [eq_comm, Int.ceil_eq_iff]
  constructor
  · have h1 : ((ceilDiv a 360 - 1) * 360 : ℤ) < a := by unfold ceilDiv; omega
    rw [show ((ceilDiv a 360 : ℤ) : ℚ) - 1 = ((ceilDiv a 360 - 1 : ℤ) : ℚ) by push_cast; ring,
      lt_div_iff (by norm_num : (0 : ℚ) < 360)]
    exact_mod_cast h1
  · have h2 : a ≤ ceilDiv a 360 * 360 := by unfold ceilDiv; omega
    rw [div_le_iff (by norm_num : (0 : ℚ) < 360)]
    exact_mod_cast h2

/-! ## Theorems for the claims -/

/-- Claim C2: for every total engine-on duration `t ≥ 0` (in seconds) fed to
the Hobbs conversion, the reported value is the whole hours plus `0.1` times
the ceiling of the seconds-remainder divided by 360; a remainder in
`(0, 360]` adds exactly `0.1`, a zero remainder adds nothing, the `ceilDiv`
in the formula is the genuine ceiling, a total of 1 h 00 m 05 s reports
`1.1`, and the summariser's `hobbs_time` field is exactly this conversion of
the accumulated engine-on seconds of the (GPS-filtered) series. -/
theorem hobbs_rounding :
    (∀ t : ℤ, 0 ≤ t →
      roundTenths t =
          ((t / 3600 : ℤ) : ℚ) + ((ceilDiv (t % 3600) 360 : ℤ) : ℚ) / 10 ∧
        (0 < t % 3600 ∧ t % 3600 ≤ 360 →
          roundTenths t = ((t / 3600 : ℤ) : ℚ) + 1 / 10) ∧
        (t % 3600 = 0 → roundTenths t = ((t / 3600 : ℤ) : ℚ)) ∧
        ((ceilDiv (t % 3600) 360 : ℤ) : ℚ) = ((⌈((t % 3600 : ℤ) : ℚ) / 360⌉ : ℤ) : ℚ)) ∧
      roundTenths 3605 = 11 / 10 ∧
      (∀ (geo : Geo) (df dfa : List Row) (s : Summary),
        summarize geo df = .ok (dfa, s) → dfa ≠ [] →
        s.hobbs_time = some (roundTenths (hobbsSeconds dfa))) := by
  have hmain : ∀ t : ℤ,
      roundTenths t = ((t / 3600 : ℤ) : ℚ) + ((ceilDiv (t % 3600) 360 : ℤ) : ℚ) / 10 := by
    intro t
    have e1 : (t / 86400) * 24 + (t % 86400) / 3600 = t / 3600 := by omega
    have e2 : t % 86400 % 3600 = t % 3600 := by omega
    unfold roundTenths
    rw [e1, e2]; ring
  refine ⟨fun t _ => ⟨hmain t, ?_, ?_, ?_⟩, ?_, ?_⟩
  · rintro ⟨h1, h2⟩
    have hc : ceilDiv (t % 3600) 360 = 1 := by unfold ceilDiv; omega
    rw [hmain t, hc]; norm_num
  · intro h0
    have hc : ceilDiv (t % 3600) 360 = 0 := by unfold ceilDiv; omega
    rw [hmain t, hc]; norm_num
  · rw [ceilDiv_360]
  · rw [hmain 3605]; norm_num [ceilDiv]
  · intro geo df dfa s h hne
    unfold summarize at h
    split at h
    · dsimp only at h
      split at h
      · simp only [Except.ok.injEq, Prod.mk.injEq] at h
        rename_i hemp
        exact absurd (h.1 ▸ hemp) hne
      · simp only [Except.ok.injEq, Prod.mk.injEq] at h
        obtain ⟨h1, h2⟩ := h
        subst h1; subst h2; rfl
    · exact absurd h (by simp)

/-- Witness for C2 at `t = 3605` (1 h 00 m 05 s): the remainder 5 lies in
`(0, 360]` and the reported Hobbs time is `1 + 0.1`. -/
theorem hobbs_rounding_witness :
    (0 : ℤ) ≤ 3605 ∧ 0 < (3605 : ℤ) % 3600 ∧ (3605 : ℤ) % 3600 ≤ 360 ∧
      roundTenths 3605 = (((3605 : ℤ) / 3600 : ℤ) : ℚ) + 1 / 10 :=
  ⟨by decide, by decide, by decide,
    (hobbs_rounding.1 3605 (by decide)).2.1 ⟨by decide, by decide⟩⟩

/-- Claim C9: on a non-empty parsed series whose every row lacks a GPS fix,
`summarize_flight_log` returns normally, and the summary holds exactly the
start and end timestamps taken from the first and last rows of the
unfiltered series — every other field is absent. -/
theorem summarize_all_rows_no_gps (geo : Geo) (df : List Row) (r0 rN : Row)
    (h0 : df.head? = some r0) (hN : df.getLast? = some rN)
    (hall : ∀ r ∈ df, r.lat = none ∨ r.lon = none) :
    summarize geo df =
      .ok ([], { beg_time := some (isoTriple r0), end_time := some (isoTriple rN) }) := by
  have hf : df.filter gpsRow = [] := by
    rw [List.filter_eq_nil]
    intro r hr
    rcases hall r hr with h | h <;> simp [gpsRow, h]
  unfold summarize
  rw [h0, hN]
  simp [hf]

/-- Witness for C9: a one-row series with no GPS fix. -/
theorem summarize_all_rows_no_gps_witness :
    [rowNoGps].head? = some rowNoGps ∧
      summarize none [rowNoGps] = .ok ([], rowNoGpsSummary) :=
  ⟨rfl, summarize_all_rows_no_gps none [rowNoGps] rowNoGps rowNoGps rfl rfl (by decide)⟩

/-- Counterexample to C10 as stated: the GPS filter runs `inplace=True`, so
after summarising a series holding a row without GPS fix the caller's
series is no longer its original value (here it became empty). -/
theorem summarize_mutates_input : summarizeDfAfter none [rowNoGps] ≠ [rowNoGps] := by
  decide

/-- Claim C10 (amended): `summarize_flight_log` is deterministic — in this
embedding it is a pure function of the series, so equal inputs yield equal
summaries definitionally — but it does *not* leave the input unchanged:
whenever it returns, the caller's series has become exactly the
GPS-filtered subseries (`dropna(..., inplace=True)`). -/
theorem summarize_deterministic_but_mutating (geo : Geo) (df dfa : List Row)
    (s : Summary) (h : summarize geo df = .ok (dfa, s)) :
    dfa = df.filter gpsRow := by
  unfold summarize at h
  split at h
  · dsimp only at h
    split at h
    · simp only [Except.ok.injEq, Prod.mk.injEq] at h
      exact h.1.symm
    · simp only [Except.ok.injEq, Prod.mk.injEq] at h
      exact h.1.symm
  · exact absurd h (by simp)

/-- Witness for C10's amended claim on the one-row no-GPS series. -/
theorem summarize_deterministic_but_mutating_witness :
    summarize none [rowNoGps] = .ok ([], rowNoGpsSummary) ∧
      ([] : List Row) = [rowNoGps].filter gpsRow :=
  ⟨rfl,
    summarize_deterministic_but_mutating none [rowNoGps] [] rowNoGpsSummary rfl⟩

/-- Counterexample to C8 as stated: with no battery confirmed at startup
(`batteryAvailable = false`) the WiFi-card loop still initiates shutdown
once external power has been continuously absent longer than the 10 s grace
period (here lost at 0, now 11) — the startup battery check only logs a
warning and never feeds the transition. -/
theorem power_shutdown_without_battery :
    wifiPowerCheck true false false (some 0) 11 = (some 0, true) := rfl

/-- Claim C8 (amended): the capture loops transition to shutdown exactly
when external power is absent at the poll and the recorded loss timestamp is
older than the grace period (10 s in WiFi-card mode with `enable_ups`, 60 s
in standalone mode) — *regardless* of whether a battery source was
confirmed at startup; a poll observing restored power clears the timestamp
and never transitions, and a fresh loss merely records the timestamp. -/
theorem power_grace_amended :
    (∀ batt pw lostAt now,
        wifiPowerCheck true batt pw lostAt now = powerStep graceWifi pw lostAt now) ∧
      (∀ batt pw lostAt now, wifiPowerCheck false batt pw lostAt now = (lostAt, false)) ∧
      (∀ batt pw lostAt now,
        standalonePowerCheck batt pw lostAt now = powerStep graceStandalone pw lostAt now) ∧
      graceWifi = 10 ∧ graceStandalone = 60 ∧
      (∀ g t now, powerStep g true (some t) now = (none, false)) ∧
      (∀ g now, powerStep g false none now = (some now, false)) ∧
      (∀ g pw lostAt now, (powerStep g pw lostAt now).2 = true ↔
        pw = false ∧ ∃ t, lostAt = some t ∧ now - t > g) := by
  refine ⟨fun _ _ _ _ => rfl, fun _ _ _ _ => rfl, fun _ _ _ _ => rfl, rfl, rfl,
    ?_, ?_, ?_⟩
  · intro g t now; simp [powerStep]
  · intro g now; simp [powerStep]
  · intro g pw lostAt now
    cases pw <;> rcases lostAt with _ | t <;> simp [powerStep]
    split_ifs with hg <;> simp [hg]

/-- Claim C4 (code bug): flushing a non-empty pending table on shutdown
raises `NameError` — the loop body's first statement reads the undefined
name `short_fname` outside the `try` block — so not a single pending entry
is summarised (while an empty table flushes trivially). -/
theorem shutdown_flush_name_error :
    flushPending [] [(("log_220308_132237_KBED.csv".toList),
        (1000, some ("x".toList)))] = .error .nameError ∧
      flushPending [] [] = .ok [] :=
  ⟨rfl, rfl⟩

/-- Claim C1: per-file behaviour of the WiFi-SD-card capture loop.  For a
file not yet in the store: a first sighting records the size and defers; an
unchanged size pops the entry, downloads only if no bytes were captured
yet, and hands the buffer to the summariser; a changed size downloads
eagerly and keeps the entry pending with the new size and buffer.  In
particular the size trace `(1000, 1000)` defers then processes exactly once
(entry popped, one download at the pop), and `(1000, 1500, 1500)` defers,
downloads exactly once at the second observation, and processes the stored
buffer (no further download) at the third. -/
theorem capture_stability :
    (∀ db (force : Bool) pending fname sz (dl : Option Str),
        ¬ (0 < logCount db fname ∧ ¬ force) →
        (pendGet pending fname = none →
          fileStep db force pending fname sz dl =
            (pendSet pending fname (sz, none), .deferredNew, 0)) ∧
        (∀ sz0 buf fl, pendGet pending fname = some (sz0, buf) → sz0 ≠ sz →
          dl = some fl →
          fileStep db force pending fname sz dl =
            (pendSet pending fname (sz, some fl), .deferredGrowing fl, 1)) ∧
        (∀ buf, pendGet pending fname = some (sz, some buf) →
          fileStep db force pending fname sz dl =
            (pendPop pending fname, .processed buf, 0)) ∧
        (∀ fl, pendGet pending fname = some (sz, none) → dl = some fl →
          fileStep db force pending fname sz dl =
            (pendPop pending fname, .processed fl, 1))) ∧
      (∀ fname b1 b2,
        runFileObs [] false fname [(1000, some b1), (1000, some b2)] [] =
          ([], [(.deferredNew, 0), (.processed b2, 1)])) ∧
      (∀ fname b1 b2 b3,
        runFileObs [] false fname
            [(1000, some b1), (1500, some b2), (1500, some b3)] [] =
          ([], [(.deferredNew, 0), (.deferredGrowing b2, 1), (.processed b2, 0)])) := by
  refine ⟨fun db force pending fname sz dl hguard => ⟨?_, ?_, ?_, ?_⟩, ?_, ?_⟩
  · intro hnone
    simp [fileStep, hguard, hnone]
    tauto
  · intro sz0 buf fl hsome hsz hdl
    simp [fileStep, hguard, hsome, hsz, hdl]
    tauto
  · intro buf hsome
    simp [fileStep, hguard, hsome]
    tauto
  · intro fl hsome hdl
    simp [fileStep, hguard, hsome, hdl]
    tauto
  · intro fname b1 b2
    simp [runFileObs, fileStep, logCount, pendGet, pendSet, pendPop]
  · intro fname b1 b2 b3
    simp [runFileObs, fileStep, logCount, pendGet, pendSet, pendPop]

/-- Witness for C1: a fresh file of size 1000 is deferred with a size-only
entry. -/
theorem capture_stability_witness :
    ¬ (0 < logCount [] ("log_1_2_K.csv".toList) ∧ ¬ false) ∧
      fileStep [] false [] ("log_1_2_K.csv".toList) 1000 none =
        (pendSet [] ("log_1_2_K.csv".toList) (1000, none), .deferredNew, 0) :=
  ⟨by decide,
    (capture_stability.1 [] false [] ("log_1_2_K.csv".toList) 1000 none
      (by decide)).1 rfl⟩

theorem logCount_append_le (db : List DbRecord) (rec : DbRecord) (k : Str)
    (h : logCount db k ≤ 1) (h0 : rec.fname = k → logCount db k = 0) :
    logCount (db ++ [rec]) k ≤ 1 := by
  unfold logCount at *
  by_cases hk : isLogRec k rec = true
  · have hf : rec.fname = k := by
      unfold isLogRec at hk
      simp only [Bool.and_eq_true, beq_iff_eq] at hk
      exact hk.2
    have h2 := h0 hf
    simp only [List.filter_append, List.filter_cons, hk, if_true, List.length_append]
    simp [h2]
  · simpa [List.filter_append, List.filter_cons, hk] using h

theorem isLogRec_key (b k : Str) (rec : DbRecord) (hrec : isLogRec b rec = true)
    (r : DbRecord) (hr : isLogRec b r = true) : isLogRec k r = isLogRec k rec := by
  unfold isLogRec at *
  simp only [Bool.and_eq_true, beq_iff_eq] at hrec hr
  simp [hrec.1, hrec.2, hr.1, hr.2]

theorem logCount_update (db : List DbRecord) (b k : Str) (rec : DbRecord)
    (hrec : isLogRec b rec = true) :
    logCount (db.map (fun r => if isLogRec b r then rec else r)) k = logCount db k := by
  unfold logCount
  induction db with
  | nil => rfl
  | cons r rs ih =>
    by_cases hr : isLogRec b r = true
    · have hk : isLogRec k r = isLogRec k rec := isLogRec_key b k rec hrec r hr
      simp only [List.map_cons, if_pos hr, List.filter_cons, hk]
      split <;> simp [ih]
    · simp only [List.map_cons, if_neg hr, List.filter_cons]
      split <;> simp [ih]

/-- Claim C6: processing the same display name a second time without
`force` leaves the metadata store exactly as it was after the first
processing; the store's one-record-per-name invariant is preserved by every
call; and a `force` re-processing of a present name updates in place (the
store's size does not grow). -/
theorem process_dedup :
    (∀ (geo : Geo) dataPath db fname flightLog,
        dbAfter geo false dataPath (dbAfter geo false dataPath db fname flightLog)
            fname flightLog
          = dbAfter geo false dataPath db fname flightLog) ∧
      (∀ (geo : Geo) (force : Bool) dataPath db fname flightLog,
        (∀ k, logCount db k ≤ 1) →
        ∀ k, logCount (dbAfter geo force dataPath db fname flightLog) k ≤ 1) ∧
      (∀ (geo : Geo) dataPath db fname flightLog,
        0 < logCount db (basename fname) →
        (dbAfter geo true dataPath db fname flightLog).length = db.length) := by
  refine ⟨?_, ?_, ?_⟩
  · intro geo dataPath db fname flightLog
    by_cases h : 0 < (db.filter (isLogRec (basename fname))).length
    · simp [dbAfter, processFlightLog, h]
    · rcases hp : parseFlightLog flightLog with e | pl
      · simp [dbAfter, processFlightLog, h, hp]
      rcases hr : dfToRows pl with e | rows
      · simp [dbAfter, processFlightLog, h, hp, hr]
      rcases hs : summarize geo rows with e | pr
      · simp [dbAfter, processFlightLog, h, hp, hr, hs]
      obtain ⟨dfa, summ⟩ := pr
      simp [dbAfter, processFlightLog, h, hp, hr, hs, List.filter_append,
        isLogRec]
  · intro geo force dataPath db fname flightLog huniq k
    by_cases h : 0 < (db.filter (isLogRec (basename fname))).length ∧ ¬ force
    · simp [dbAfter, processFlightLog, h]
      exact huniq k
    · unfold dbAfter processFlightLog
      rw [if_neg h]
      rcases hp : parseFlightLog flightLog with e | pl
      · exact huniq k
      dsimp only
      rcases hr : dfToRows pl with e | rows
      · exact huniq k
      dsimp only
      rcases hs : summarize geo rows with e | pr
      · exact huniq k
      obtain ⟨dfa, summ⟩ := pr
      dsimp only
      by_cases hl : 0 < (db.filter (isLogRec (basename fname))).length
      · rw [if_pos hl, logCount_update db (basename fname) k _ (by simp [isLogRec])]
        exact huniq k
      · rw [if_neg hl]
        refine logCount_append_le db _ k (huniq k) (fun hf => ?_)
        have hbf : basename fname = k := hf
        unfold logCount
        rw [← hbf]
        omega
  · intro geo dataPath db fname flightLog hpos
    have h : ¬ (0 < (db.filter (isLogRec (basename fname))).length ∧ ¬ (true : Bool)) := by
      simp
    rcases hp : parseFlightLog flightLog with e | pl
    · simp [dbAfter, processFlightLog, h, hp]
    rcases hr : dfToRows pl with e | rows
    · simp [dbAfter, processFlightLog, h, hp, hr]
    rcases hs : summarize geo rows with e | pr
    · simp [dbAfter, processFlightLog, h, hp, hr, hs]
    obtain ⟨dfa, summ⟩ := pr
    have hl : 0 < (db.filter (isLogRec (basename fname))).length := hpos
    simp [dbAfter, processFlightLog, h, hp, hr, hs, hl]

/-- Witness for C6: a store already holding the record keeps its size under
a forced re-processing (here the forced call fails to parse the empty log
and the store is unchanged). -/
theorem process_dedup_witness :
    0 < logCount [sampleLogRecord] (basename ("log_1_2_K.csv".toList)) ∧
      (dbAfter none true [] [sampleLogRecord] ("log_1_2_K.csv".toList) []).length =
        [sampleLogRecord].length :=
  ⟨by decide,
    process_dedup.2.2 none [] [sampleLogRecord] ("log_1_2_K.csv".toList) [] (by decide)⟩

theorem connWait_reqs (conn : ℕ → Bool) (timeout : Option ℤ) :
    ∀ (fuel k : ℕ) (x : NReq), x ∈ (connWait conn timeout fuel k).1 →
      x = .hubStatus ∨ x = .hubSyncStatus := by
  intro fuel
  induction fuel with
  | zero =>
    intro k x hx
    unfold connWait at hx
    dsimp only at hx
    split at hx <;> simp at hx
  | succ fuel2 ih =>
    intro k x hx
    unfold connWait at hx
    dsimp only at hx
    split at hx
    · simp at hx
    · by_cases hc : conn k = true
      · simp [hc] at hx
        exact Or.inl hx
      · simp only [Bool.not_eq_true] at hc
        simp [hc] at hx
        rcases hx with h | h | h
        · exact Or.inl h
        · exact Or.inr h
        · exact ih (k + 1) x h

theorem tmEnter_reqs (cur target : Str) (wait : Bool) (conn : ℕ → Bool)
    (timeout : Option ℤ) (fuel : ℕ) (x : NReq)
    (hx : x ∈ (tmEnter cur target wait conn timeout fuel).1) :
    x = .hubGet ∨ x = .hubSet target ∨ x = .hubStatus ∨ x = .hubSyncStatus := by
  unfold tmEnter at hx
  have hset : ∀ y : NReq, y ∈ (if cur ≠ target then [NReq.hubSet target] else []) →
      y = .hubSet target := by
    intro y hy
    split at hy <;> simp at hy
    exact hy
  cases wait
  · simp only [Bool.false_eq_true, if_false, List.mem_cons] at hx
    rcases hx with h | h
    · exact Or.inl h
    · exact Or.inr (Or.inl (hset x h))
  · dsimp only [if_true] at hx
    rcases List.mem_cons.mp hx with h | h
    · exact Or.inl h
    · rcases List.mem_append.mp h with h2 | h2
      · exact Or.inr (Or.inl (hset x h2))
      · rcases connWait_reqs conn timeout fuel 0 x h2 with h3 | h3
        · exact Or.inr (Or.inr (Or.inl h3))
        · exact Or.inr (Or.inr (Or.inr h3))

/-- Counterexample to C3 as stated: entering `temporary_mode("continuous")`
from `periodic` with a 3 s connection timeout and a card that never reports
`connected` changes the mode (`hub.set continuous` is issued) and then the
connection wait raises inside `__enter__` — Python never calls `__exit__`
when `__enter__` raises, so no `hub.set periodic` restore transaction is
ever issued on this exit path. -/
theorem temporary_mode_timeout_no_restore :
    temporaryModeRun ("periodic".toList) ("continuous".toList) true (fun _ => false)
        (some 3) 5 (.ok (0 : ℕ))
      = ([.hubGet, .hubSet ("continuous".toList), .hubStatus, .hubSyncStatus],
          .error .connectionTimeout) ∧
      NReq.hubSet ("periodic".toList) ∉
        (temporaryModeRun ("periodic".toList) ("continuous".toList) true
          (fun _ => false) (some 3) 5 (.ok (0 : ℕ))).1 := by
  refine ⟨rfl, ?_⟩
  decide

/-- Claim C3 (amended): when `__enter__` succeeds, the scope guard issues
the restoring `hub.set` on every exit path — for an arbitrary body outcome
the transcript is the entry transactions followed by `tmExit`, which is
exactly `hub.set <prior mode>` whenever the mode was changed, and the body's
outcome (success or failure) is propagated after the restore.  The
connection wait itself fails with the connection-timeout error whenever the
connected flag is never observed and the deadline passes; but when that
happens the error propagates out of `__enter__` and *no* restore
transaction is issued (Python skips `__exit__`). -/
theorem temporary_mode_restore_amended :
    (∀ (α : Type) (cur target : Str) (wait : Bool) (conn : ℕ → Bool)
        (timeout : Option ℤ) (fuel : ℕ) (body : Except PyErr α),
        (tmEnter cur target wait conn timeout fuel).2 = .ok () →
        (temporaryModeRun cur target wait conn timeout fuel body).1
            = (tmEnter cur target wait conn timeout fuel).1 ++ tmExit cur target ∧
          (temporaryModeRun cur target wait conn timeout fuel body).2 = body) ∧
      (∀ cur target : Str, cur ≠ target → tmExit cur target = [.hubSet cur]) ∧
      (∀ (conn : ℕ → Bool) (tmo : ℤ) (fuel k : ℕ), 0 ≤ tmo →
        (∀ j, conn j = false) → tmo / 5 + 2 ≤ (fuel : ℤ) + k →
        ∃ tr, connWait conn (some tmo) fuel k = (tr, .error .connectionTimeout)) ∧
      (∀ (α : Type) (cur target : Str) (wait : Bool) (conn : ℕ → Bool)
        (timeout : Option ℤ) (fuel : ℕ) (body : Except PyErr α) (e : PyErr),
        (tmEnter cur target wait conn timeout fuel).2 = .error e →
        (temporaryModeRun cur target wait conn timeout fuel body).2 = .error e ∧
          (cur ≠ target →
            NReq.hubSet cur ∉ (temporaryModeRun cur target wait conn timeout fuel body).1)) := by
  refine ⟨?_, ?_, ?_, ?_⟩
  · intro α cur target wait conn timeout fuel body h
    unfold temporaryModeRun
    rcases he : tmEnter cur target wait conn timeout fuel with ⟨tr, r⟩
    rw [he] at h
    simp only at h
    subst h
    cases body <;> simp
  · intro cur target h
    simp [tmExit, h]
  · intro conn tmo fuel
    induction fuel with
    | zero =>
      intro k h0 hconn hge
      have h5 : (5 * (k : ℤ)) > tmo := by
        simp only [Nat.cast_zero, zero_add] at hge
        omega
      exact ⟨[], by simp [connWait, h5]⟩
    | succ fuel2 ih =>
      intro k h0 hconn hge
      by_cases h5 : (5 * (k : ℤ)) > tmo
      · exact ⟨[], by simp [connWait, h5]⟩
      · obtain ⟨tr, htr⟩ := ih (k + 1) h0 hconn (by push_cast at hge ⊢; omega)
        refine ⟨.hubStatus :: .hubSyncStatus :: tr, ?_⟩
        unfold connWait
        simp [h5, hconn k, htr]
  · intro α cur target wait conn timeout fuel body e h
    unfold temporaryModeRun
    rcases he : tmEnter cur target wait conn timeout fuel with ⟨tr, r⟩
    rw [he] at h
    simp only at h
    subst h
    refine ⟨rfl, fun hne hmem => ?_⟩
    have h2 := tmEnter_reqs cur target wait conn timeout fuel (NReq.hubSet cur)
    rw [he] at h2
    rcases h2 hmem with h3 | h3 | h3 | h3 <;> simp at h3
    exact hne h3

/-- Witness for C3's amended claim: a card already connected at the first
poll enters successfully and the run's transcript ends with the restore. -/
theorem temporary_mode_restore_witness :
    (tmEnter ("periodic".toList) ("continuous".toList) true (fun _ => true) none 1).2
        = .ok () ∧
      (temporaryModeRun ("periodic".toList) ("continuous".toList) true
          (fun _ => true) none 1 (.ok (0 : ℕ))).1
        = (tmEnter ("periodic".toList) ("continuous".toList) true
            (fun _ => true) none 1).1 ++ tmExit ("periodic".toList) ("continuous".toList) :=
  ⟨rfl,
    (temporary_mode_restore_amended.1 ℕ ("periodic".toList) ("continuous".toList)
      true (fun _ => true) none 1 (.ok 0) rfl).1⟩

theorem webReqs_eq_map (route : Str) (name content : Option Str) (payload : List ℕ)
    (chunk : ℕ) (hC : 0 < chunk) :
    ∀ offset, webReqs route name content payload chunk hC offset =
      (List.range ((payload.length - offset + chunk - 1) / chunk)).map
        (fun j => webReqAt route name content payload chunk (offset + j * chunk)) := by
  suffices h : ∀ n offset, payload.length - offset ≤ n →
      webReqs route name content payload chunk hC offset =
        (List.range ((payload.length - offset + chunk - 1) / chunk)).map
          (fun j => webReqAt route name content payload chunk (offset + j * chunk)) by
    exact fun offset => h payload.length offset (Nat.sub_le _ _)
  intro n
  induction n with
  | zero =>
    intro offset hle
    have hno : ¬ offset < payload.length := by omega
    unfold webReqs
    rw [dif_neg hno, Nat.div_eq_of_lt (by omega)]
    simp
  | succ n ih =>
    intro offset hle
    by_cases ho : offset < payload.length
    · have hd1 : payload.length - (offset + chunk) ≤ n := by omega
      unfold webReqs
      rw [dif_pos ho, ih (offset + chunk) hd1]
      have harith : (payload.length - offset + chunk - 1) / chunk
          = (payload.length - (offset + chunk) + chunk - 1) / chunk + 1 := by
        rcases Nat.le_total (payload.length - offset) chunk with hd | hd
        · have hL1 : (payload.length - offset + chunk - 1) / chunk = 1 := by
            have h3 : payload.length - offset + chunk - 1
                = (payload.length - offset - 1) + chunk := by omega
            rw [h3, Nat.add_div_right _ hC, Nat.div_eq_of_lt (by omega)]
          have hR0 : (payload.length - (offset + chunk) + chunk - 1) / chunk = 0 := by
            have h1 : payload.length - (offset + chunk) + chunk - 1 = chunk - 1 := by
              omega
            rw [h1]
            exact Nat.div_eq_of_lt (by omega)
          rw [hL1, hR0]
        · have h3 : payload.length - offset + chunk - 1
              = (payload.length - (offset + chunk) + chunk - 1) + chunk := by omega
          rw [h3, Nat.add_div_right _ hC]
      rw [harith, List.range_succ_eq_map]
      simp only [List.map_cons, List.map_map]
      congr 1
      · simp
      · apply List.map_congr_left
        intro j _
        simp only [Function.comp_apply]
        congr 1
        simp only [Nat.succ_eq_add_one]
        ring
    · unfold webReqs
      rw [dif_neg ho, Nat.div_eq_of_lt (by omega)]
      simp

theorem webLoop_reqs (route : Str) (name content : Option Str) (payload : List ℕ)
    (chunk : ℕ) (hC : 0 < chunk) (rsps : ℕ → NRsp)
    (hok : ∀ i, (rsps i).err = none) :
    ∀ (n offset i : ℕ) (last : Option NRsp), payload.length - offset ≤ n →
      (webLoop route name content payload chunk hC rsps offset i last).1
        = webReqs route name content payload chunk hC offset := by
  intro n
  induction n with
  | zero =>
    intro offset i last hle
    have hno : ¬ offset < payload.length := by omega
    unfold webLoop webReqs
    rw [dif_neg hno, dif_neg hno]
    cases last <;> rfl
  | succ n ih =>
    intro offset i last hle
    by_cases ho : offset < payload.length
    · unfold webLoop webReqs
      rw [dif_pos ho, dif_pos ho]
      have hi : (rsps i).err.isSome = false := by rw [hok i]; rfl
      simp only [hi, Bool.false_eq_true, if_false]
      rw [← ih (offset + chunk) (i + 1) (some (rsps i)) (by omega)]
    · unfold webLoop webReqs
      rw [dif_neg ho, dif_neg ho]
      cases last <;> rfl

/-- Counterexample to C5 as stated: on an empty payload (`L = 0 ≤ C`) the
upload loop never runs, so *no* transaction is issued — not one — and after
the scope guard restores the mode the final-response read fails with
`NameError` (`rsp` was never bound). -/
theorem web_post_empty_payload :
    webPost ("periodic".toList) false (fun _ => false) none 0 ("r".toList) none none
        [] 4096 (by decide) (fun _ => { err := none, payload := none })
      = ([.hubGet, .hubSet ("continuous".toList), .hubSet ("periodic".toList)],
          [], .error .nameError) := by
  simp [webPost, tmEnter, tmExit, webLoop]

/-- Claim C5 (amended): for a non-empty payload of length `L` and chunk size
`C > 0`, `web_post` builds exactly the spec's transaction list: `ceil(L/C)`
fragments when `L > C` — the `j`-th carrying `total = L`, `offset = j·C`,
the base64 body of bytes `[j·C, j·C + C)` and `status` equal to that
fragment's MD5 hex digest, with the verify flag — and exactly one
unfragmented transaction (base64 body, no fragment fields) when `L ≤ C`;
with error-free responses the full `web_post` run issues exactly that list.
For `L = 0` the loop body never runs and no transaction is issued. -/
theorem web_post_fragmentation_amended :
    (∀ (route : Str) (name content : Option Str) (payload : List ℕ) (chunk : ℕ)
        (hC : 0 < chunk), payload ≠ [] →
        webReqs route name content payload chunk hC 0
          = specWebReqs route name content payload chunk) ∧
      (∀ (route : Str) (name content : Option Str) (payload : List ℕ) (chunk : ℕ)
        (hC : 0 < chunk),
        (webReqs route name content payload chunk hC 0).length
          = (payload.length + chunk - 1) / chunk) ∧
      (∀ (cur : Str) (wait : Bool) (conn : ℕ → Bool) (timeout : Option ℤ)
        (fuel : ℕ) (route : Str) (name content : Option Str) (payload : List ℕ)
        (chunk : ℕ) (hC : 0 < chunk) (rsps : ℕ → NRsp),
        (∀ i, (rsps i).err = none) →
        (tmEnter cur ("continuous".toList) wait conn timeout fuel).2 = .ok () →
        (webPost cur wait conn timeout fuel route name content payload chunk hC rsps).2.1
          = webReqs route name content payload chunk hC 0) := by
  refine ⟨?_, ?_, ?_⟩
  · intro route name content payload chunk hC hL
    rw [webReqs_eq_map route name content payload chunk hC 0]
    unfold specWebReqs
    have hpos : 0 < payload.length := List.length_pos.mpr hL
    by_cases hle : payload.length ≤ chunk
    · rw [if_pos hle]
      have hcount : (payload.length - 0 + chunk - 1) / chunk = 1 := by
        have h3 : payload.length - 0 + chunk - 1 = (payload.length - 1) + chunk := by
          omega
        rw [h3, Nat.add_div_right _ hC, Nat.div_eq_of_lt (by omega)]
      rw [hcount]
      have hngt : ¬ (chunk < payload.length) := by omega
      simp [webReqAt, hngt]
    · rw [if_neg hle]
      simp only [Nat.sub_zero]
      apply List.map_congr_left
      intro j _
      have hgt : chunk < payload.length := by omega
      simp [webReqAt, hgt]
  · intro route name content payload chunk hC
    rw [webReqs_eq_map route name content payload chunk hC 0]
    simp
  · intro cur wait conn timeout fuel route name content payload chunk hC rsps hok he
    unfold webPost
    dsimp only
    rcases hte : tmEnter cur ("continuous".toList) wait conn timeout fuel with ⟨tr, r⟩
    rw [hte] at he
    simp only at he
    subst he
    dsimp only
    rcases hwl : webLoop route name content payload chunk hC rsps 0 0 none with ⟨wr, res⟩
    dsimp only
    have hwr : wr = webReqs route name content payload chunk hC 0 := by
      rw [← webLoop_reqs route name content payload chunk hC rsps hok
        payload.length 0 0 none (Nat.sub_le _ _), hwl]
    cases res <;> simpa using hwr

/-- Witness for C5's amended claim on a three-byte payload with chunk size
two (two fragments). -/
theorem web_post_fragmentation_witness :
    ([1, 2, 3] : List ℕ) ≠ [] ∧
      webReqs ("r".toList) none none [1, 2, 3] 2 (by decide) 0
        = specWebReqs ("r".toList) none none [1, 2, 3] 2 :=
  ⟨by decide,
    web_post_fragmentation_amended.1 ("r".toList) none none [1, 2, 3] 2 (by decide)
      (by decide)⟩

theorem splitChar_ne_nil (sep : Char) (s : Str) : splitChar sep s ≠ [] := by
  cases s with
  | nil => simp [splitChar]
  | cons c rest =>
    unfold splitChar
    dsimp only
    split <;> simp

theorem coerceRow_ok_of_le (types fields : List Str) :
    ∀ (pieces : List Str) (ii : ℕ),
      pieces.length + ii ≤ types.length → pieces.length + ii ≤ fields.length →
      ∃ rec, coerceRow types fields pieces ii = .ok rec ∧ rec.length = pieces.length := by
  intro pieces
  induction pieces with
  | nil => exact fun ii _ _ => ⟨[], rfl, rfl⟩
  | cons v rest ih =>
    intro ii h1 h2
    simp only [List.length_cons] at h1 h2
    have ht : ii < types.length := by omega
    have hf : ii < fields.length := by omega
    obtain ⟨rec, hrec, hlen⟩ := ih (ii + 1) (by omega) (by omega)
    refine ⟨coerceForType (types.get ⟨ii, ht⟩) (pyStrip v) :: rec, ?_, by simp [hlen]⟩
    unfold coerceRow
    rw [List.get?_eq_get ht, List.get?_eq_get hf, hrec]

theorem coerceRow_err_of_gt (types fields : List Str) :
    ∀ (pieces : List Str) (ii : ℕ), pieces ≠ [] →
      (types.length < pieces.length + ii ∨ fields.length < pieces.length + ii) →
      coerceRow types fields pieces ii = .error .indexError := by
  intro pieces
  induction pieces with
  | nil => exact fun ii h _ => absurd rfl h
  | cons v rest ih =>
    intro ii _ hlt
    simp only [List.length_cons] at hlt
    by_cases ht : ii < types.length
    · by_cases hf : ii < fields.length
      · have hrest : rest ≠ [] := by
          intro heq
          subst heq
          rcases hlt with h | h <;> simp at h <;> omega
        have hlt2 : types.length < rest.length + (ii + 1) ∨
            fields.length < rest.length + (ii + 1) := by
          rcases hlt with h | h
          · exact Or.inl (by omega)
          · exact Or.inr (by omega)
        unfold coerceRow
        rw [List.get?_eq_get ht, List.get?_eq_get hf, ih (ii + 1) hrest hlt2]
      · unfold coerceRow
        rw [show fields.get? ii = none from List.get?_eq_none.mpr (by omega)]
        rcases hg : types.get? ii with _ | ty <;> rfl
    · unfold coerceRow
      rw [show types.get? ii = none from List.get?_eq_none.mpr (by omega)]

theorem coerceRow_err_only (types fields : List Str) :
    ∀ (pieces : List Str) (ii : ℕ) (e : PyErr),
      coerceRow types fields pieces ii = .error e → e = .indexError := by
  intro pieces
  induction pieces with
  | nil => intro ii e h; simp [coerceRow] at h
  | cons v rest ih =>
    intro ii e h
    unfold coerceRow at h
    split at h
    · split at h
      · exact absurd h (by simp)
      · rename_i e2 heq
        simp only [Except.error.injEq] at h
        exact h ▸ ih (ii + 1) e2 heq
    · simp only [Except.error.injEq] at h
      exact h.symm

theorem combineTime_err_only (tf : ℕ × ℕ × ℕ) (rec : List GVal) (e : PyErr)
    (h : combineTime tf rec = .error e) :
    e = .typeError ∨ e = .attributeError ∨ e = .indexError := by
  unfold combineTime at h
  split at h <;> simp_all

theorem iterParse_no_format (types fields : List Str) (tf : Option (ℕ × ℕ × ℕ)) :
    ∀ (lines : List Str) (e : PyErr),
      iterParse types fields tf lines = .error e → e ≠ .runtimeFormat := by
  intro lines
  induction lines with
  | nil => intro e h; simp [iterParse] at h
  | cons ll rest ih =>
    intro e h
    unfold iterParse at h
    split at h
    · rename_i e2 heq
      simp only [Except.error.injEq] at h
      subst h
      rw [coerceRow_err_only types fields _ 0 e2 heq]
      simp
    · split at h
      · split at h
        · split at h
          · exact absurd h (by simp)
          · rename_i e2 heq
            simp only [Except.error.injEq] at h
            subst h
            exact ih e2 heq
        · split at h
          · rename_i e2 heq
            simp only [Except.error.injEq] at h
            subst h
            rcases combineTime_err_only _ _ e2 heq with h2 | h2 | h2 <;> simp [h2]
          · split at h
            · exact absurd h (by simp)
            · rename_i e2 heq
              simp only [Except.error.injEq] at h
              subst h
              exact ih e2 heq
      · exact ih e h

theorem airframeInfoOf_err_only :
    ∀ (l : List Str) (e : PyErr), airframeInfoOf l = .error e → e = .indexError := by
  intro l
  induction l with
  | nil => intro e h; simp [airframeInfoOf] at h
  | cons piece rest ih =>
    intro e h
    unfold airframeInfoOf at h
    split at h
    · split at h
      · simp only [Except.error.injEq] at h
        exact h.symm
      · rcases har : airframeInfoOf rest with e2 | m
        · rw [har] at h
          dsimp only at h
          simp only [Except.error.injEq] at h
          exact h ▸ ih e2 har
        · rw [har] at h
          dsimp only at h
          simp at h
    · exact ih e h

/-- Counterexample to C7 as stated: a log whose first line matches the
header signature but whose data row has *more* comma-separated fields (two)
than the header (one) makes `parse_flight_log` raise `IndexError` — the
mismatched row is fatal, not silently dropped, and the failure is not a
header-signature failure. -/
theorem parse_extra_field_row_fatal :
    parseFlightLog ("#airframe_info, log_version=\"1.00\"\n#kt\nIAS\n1,2".toList)
        = .error .indexError ∧
      airframeHeader.isPrefixOf
          ((splitChar '\n'
            ("#airframe_info, log_version=\"1.00\"\n#kt\nIAS\n1,2".toList)).map
              pyStrip).headI = true :=
  ⟨rfl, rfl⟩

/-- Claim C7 (amended): `parse_flight_log` fails with the format error
(`RuntimeError("unsupported flight log format")`) *iff* the first (stripped)
line does not start with the expected header signature; a data row with
fewer comma-separated fields than the header row (and within the type row)
is silently dropped and parsing continues with the remaining rows; but a
data row with more fields than the type or header row is fatal with an
index error. -/
theorem parse_format_iff_and_row_handling :
    (∀ s : Str, parseFlightLog s = .error .runtimeFormat ↔
        ¬ airframeHeader.isPrefixOf ((splitChar '\n' s).map pyStrip).headI) ∧
      (∀ (types fields : List Str) (tf : Option (ℕ × ℕ × ℕ)) (ll : Str)
        (rest : List Str),
        (splitChar ',' ll).length ≤ types.length →
        (splitChar ',' ll).length < fields.length →
        iterParse types fields tf (ll :: rest) = iterParse types fields tf rest) ∧
      (∀ (types fields : List Str) (tf : Option (ℕ × ℕ × ℕ)) (ll : Str)
        (rest : List Str),
        types.length < (splitChar ',' ll).length ∨
          fields.length < (splitChar ',' ll).length →
        iterParse types fields tf (ll :: rest) = .error .indexError) := by
  refine ⟨?_, ?_, ?_⟩
  · intro s
    constructor
    · intro h
      by_contra hp
      unfold parseFlightLog at h
      rw [if_neg (by simpa using hp)] at h
      split at h
      · rename_i e2 heq
        simp only [Except.error.injEq] at h
        have := airframeInfoOf_err_only _ e2 heq
        simp [this] at h
      · split at h
        · dsimp only at h
          split at h
          · exact absurd h (by simp)
          · rename_i e2 heq
            simp only [Except.error.injEq] at h
            exact iterParse_no_format _ _ _ _ e2 heq h
        · simp at h
    · intro hp
      unfold parseFlightLog
      rw [if_pos hp]
  · intro types fields tf ll rest h1 h2
    obtain ⟨rec, hrec, hlen⟩ :=
      coerceRow_ok_of_le types fields (splitChar ',' ll) 0 (by omega) (by omega)
    simp only [iterParse]
    rw [hrec]
    dsimp only
    rw [if_neg (by omega)]
  · intro types fields tf ll rest hlt
    have h := coerceRow_err_of_gt types fields (splitChar ',' ll) 0
      (splitChar_ne_nil ',' ll) (by omega)
    unfold iterParse
    rw [h]

/-- Witness for C7's amended claim: a one-field row under a two-field
header (and a one-entry type row) is dropped and parsing continues. -/
theorem parse_row_drop_witness :
    (splitChar ',' ("1".toList)).length ≤ [("kt".toList)].length ∧
      (splitChar ',' ("1".toList)).length < [("IAS".toList), ("X".toList)].length ∧
      iterParse [("kt".toList)] [("IAS".toList), ("X".toList)] none [("1".toList)]
        = iterParse [("kt".toList)] [("IAS".toList), ("X".toList)] none [] :=
  ⟨by decide, by decide,
    parse_format_iff_and_row_handling.2.1 [("kt".toList)]
      [("IAS".toList), ("X".toList)] none ("1".toList) [] (by decide) (by decide)⟩

end OpenSync
